import Mathlib

/-!
Verification development for the MainTrack front-end (React/TypeScript).

The definitions below are shallow embeddings of the view-model logic found in
the repository source: the HTTP client (`src/unnamed/part_002`), the dashboard
page (`src/unnamed/part_004`), the medical-exam widget (`src/unnamed/part_008`),
the devices page and ESMO journal page (`src/unnamed/part_006`), the admin
users page (`src/frontend/src/pages/AdminUsersPage.tsx`).

Conventions of the embedding:
- JavaScript strings are Lean `String`s; the JS string helpers used by the
  code (`toLowerCase`, `trim`, `split(/\s+/)`, `includes`) are re-implemented
  below as structurally-recursive functions over `List Char` so that all
  definitions are executable by the kernel.
- Timestamps handled through `new Date(x).getTime()` are modelled as epoch
  milliseconds (`Nat`), i.e. the `Date` parse is applied before the data
  enters the model; a nullable timestamp is an `Option Nat`.
- Nullable / optional JS fields are `Option` fields, and the pervasive
  defensive `x || fallback` idiom on strings is modelled by `Option.getD`
  (for nullable fields) or an explicit test against the empty string.
- The i18n translation function `t` and the `dayjs` display formatter are
  free parameters (`tr`, `fmtTime`): the embedded code never inspects their
  output.
-/

namespace MainTrack

/-! ## JS string helpers (re-implemented executably) -/

/-- JS `String.prototype.toLowerCase`, character by character. -/
def lowerStr (s : String) : String := String.mk (s.data.map Char.toLower)

/-- Whitespace class of the JS regex `\s` restricted to the ASCII range
(space, tab, newline, carriage return, vertical tab, form feed). -/
def isWsChar (c : Char) : Bool :=
  c = ' ' || c = '\t' || c = '\n' || c = '\r' || c = '\x0b' || c = '\x0c'

/-- Split a character list at every whitespace character.  Splitting at every
single whitespace character followed by discarding empty chunks is
extensionally the JS `split(/\s+/).filter(Boolean)` pipeline. -/
def splitWsChars : List Char → List (List Char)
  | [] => [[]]
  | c :: cs =>
    if isWsChar c then [] :: splitWsChars cs
    else
      match splitWsChars cs with
      | [] => [[c]]
      | t :: ts => (c :: t) :: ts

/-- JS `String.prototype.trim`: drop leading and trailing whitespace. -/
def trimChars (cs : List Char) : List Char :=
  ((cs.dropWhile isWsChar).reverse.dropWhile isWsChar).reverse

/-- Does `hay` start with `pat`? -/
def charsStartWith : List Char → List Char → Bool
  | _, [] => true
  | [], _ :: _ => false
  | h :: hs, p :: ps => h = p && charsStartWith hs ps

/-- Does `hay` contain `pat` as a contiguous substring?  This is JS
`String.prototype.includes` on the underlying character lists. -/
def charsInclude : List Char → List Char → Bool
  | [], pat => pat.isEmpty
  | h :: hs, pat => charsStartWith (h :: hs) pat || charsInclude hs pat

/-- JS `hay.includes(pat)`. -/
def strIncludes (hay pat : String) : Bool := charsInclude hay.data pat.data

/-- JS `Array.prototype.join(sep)` on a list of strings. -/
def joinSep (sep : String) : List String → String
  | [] => ""
  | [x] => x
  | x :: y :: ys => x ++ sep ++ joinSep sep (y :: ys)

/-! ## `dur` — duration formatting (DashboardPage, `src/unnamed/part_004`
lines 70-74)

```js
function dur(min) {
    const h = Math.floor(min / 60);
    const m = min % 60;
    return `h m`;   // template: h ++ "h " ++ m ++ "m"
}
``` -/

/-- Duration formatter of the dashboard: integer minutes to `h`/`m` text. -/
def dur (min : Nat) : String :=
  toString (min / 60) ++ "h " ++ toString (min % 60) ++ "m"

/-! ## HTTP client `request` (`src/unnamed/part_002` lines 8-27) -/

/-- State the client touches outside the response: the stored bearer token
(`localStorage` key `minetrack_token`) and the window location. -/
structure ClientState where
  token : Option String
  location : String
deriving DecidableEq, Repr

/-- The part of a `fetch` `Response` the client reads. -/
structure HttpResponse where
  status : Nat
  bodyText : String
deriving DecidableEq, Repr

/-- Embeds `Response.ok`: status in the inclusive range 200-299. -/
def resOk (r : HttpResponse) : Bool := 200 ≤ r.status && r.status < 300

/-- The `request` helper of the API client.  `parse` stands for
`res.json()` applied to the body text.  Returns the client state after the
call together with the outcome: `Except.error` models a thrown `Error`,
`Except.ok none` models the `null` result of a 204 response. -/
def request {α : Type} (st : ClientState) (res : HttpResponse)
    (parse : String → α) : ClientState × Except String (Option α) :=
  if res.status = 401 then
    ({ st with token := none, location := "/login" }, Except.error "Unauthorized")
  else if !resOk res then
    (st, Except.error (if res.bodyText = "" then "HTTP " ++ toString res.status
                       else res.bodyText))
  else if res.status = 204 then
    (st, Except.ok none)
  else
    (st, Except.ok (some (parse res.bodyText)))

/-! ## Claim theorems: C7, C3 -/

/-- C7: duration formatting maps every non-negative integer minute count `n`
to the string `h ++ "h " ++ m ++ "m"` where `h` and `m` are the true quotient
and remainder of `n` by 60 (truncating division, no other rounding); in
particular 125 minutes formats as `"2h 5m"`. -/
theorem dur_formats_quotient_remainder :
    (∀ n : Nat, ∃ h m : Nat, n = 60 * h + m ∧ m < 60 ∧
      dur n = toString h ++ "h " ++ toString m ++ "m") ∧
    dur 125 = "2h 5m" := by
  refine ⟨fun n => ⟨n / 60, n % 60, ?_, Nat.mod_lt _ (by omega), rfl⟩, rfl⟩
  omega

/-- C3: behaviour of the API client `request` helper on each response class:
401 clears the stored token, navigates to `/login` and fails with
"Unauthorized"; any other non-2xx fails with the body text, or `HTTP <status>`
when the body is empty, leaving the state unchanged; 204 resolves to a null
result; any other 2xx resolves to the parsed JSON body. -/
theorem request_response_handling {α : Type} (st : ClientState)
    (res : HttpResponse) (parse : String → α) :
    (res.status = 401 →
      request st res parse =
        ({ st with token := none, location := "/login" },
          Except.error "Unauthorized")) ∧
    (res.status ≠ 401 → resOk res = false →
      request st res parse =
        (st, Except.error (if res.bodyText = "" then "HTTP " ++ toString res.status
                           else res.bodyText))) ∧
    (res.status = 204 → request st res parse = (st, Except.ok none)) ∧
    (resOk res = true → res.status ≠ 204 →
      request st res parse = (st, Except.ok (some (parse res.bodyText)))) := by
  refine ⟨fun h401 => ?_, fun h401 hok => ?_, fun h204 => ?_, fun hok h204 => ?_⟩
  · simp [request, h401]
  · simp [request, h401, hok]
  · have hok : resOk res = true := by simp [resOk, h204]
    have h401 : res.status ≠ 401 := by omega
    simp [request, h401, hok, h204]
  · have h401 : res.status ≠ 401 := by
      simp only [resOk, Bool.and_eq_true, decide_eq_true_eq] at hok
      omega
    simp [request, h401, hok, h204]

/-- Witness for C3: a concrete 401 response clears the token, redirects to the
login screen and fails the call. -/
theorem request_response_handling_witness :
    request (α := String) ⟨some "tok", "/dashboard"⟩ ⟨401, ""⟩ (fun s => s) =
      (⟨none, "/login"⟩, Except.error "Unauthorized") :=
  (request_response_handling ⟨some "tok", "/dashboard"⟩ ⟨401, ""⟩ (fun s => s)).1 rfl

/-! ## Daily summary rows, dashboard sort, search filter
(`src/unnamed/part_004` lines 76-158; row shape from
`src/frontend/src/api/dashboard.ts`) -/

/-- A row of `GET /reports/daily-mine-summary`.  The interface declares
`employee_no`/`full_name` as `string` and the timestamps as `string | null`;
the page guards every read with `|| ""` / a truthiness test, so the fields are
embedded as `Option`s, timestamps as parsed epoch milliseconds. -/
structure DailySummaryRow where
  employee_no : Option String
  full_name : Option String
  total_minutes : Nat
  last_in : Option Nat
  last_out : Option Nat
  is_inside : Bool
deriving DecidableEq, Repr

/-- Embeds `getLastActivityMs`: `Math.max` of the two timestamps, a missing one
counting as 0. -/
def getLastActivityMs (row : DailySummaryRow) : Nat :=
  max (row.last_in.getD 0) (row.last_out.getD 0)

/-- The comparator `(a, b) => getLastActivityMs(b) - getLastActivityMs(a)`
passed to `Array.prototype.sort` orders `a` before `b` exactly when this
relation holds. -/
def moreRecentFirst (a b : DailySummaryRow) : Prop :=
  getLastActivityMs b ≤ getLastActivityMs a

instance : DecidableRel moreRecentFirst :=
  fun x y => Nat.decLe (getLastActivityMs y) (getLastActivityMs x)

instance : IsTotal DailySummaryRow moreRecentFirst :=
  ⟨fun x y => Nat.le_total (getLastActivityMs y) (getLastActivityMs x)⟩

instance : IsTrans DailySummaryRow moreRecentFirst :=
  ⟨fun _ _ _ h1 h2 => Nat.le_trans h2 h1⟩

/-- The `.sort` call of the dashboard `load` function.  `Array.prototype.sort`
with a consistent comparator produces a stable permutation sorted by the
comparator; it is embedded as the (stable) insertion sort under
`moreRecentFirst`. -/
def sortSummary (rows : List DailySummaryRow) : List DailySummaryRow :=
  List.insertionSort moreRecentFirst rows

/-- A row with neither an entry nor an exit timestamp. -/
def hasNoActivity (row : DailySummaryRow) : Prop :=
  row.last_in = none ∧ row.last_out = none

instance (row : DailySummaryRow) : Decidable (hasNoActivity row) := by
  unfold hasNoActivity; infer_instance

/-- The dashboard search normalization:
`searchQuery.trim().toLowerCase().split(/\s+/).filter(Boolean)`. -/
def tokenize (q : String) : List String :=
  ((splitWsChars ((trimChars q.data).map Char.toLower)).map String.mk).filter
    (fun t => t ≠ "")

/-- Haystack of a summary row: `` `${r.full_name || ""} ${r.employee_no || ""}`
.toLowerCase() ``. -/
def rowHaystack (row : DailySummaryRow) : String :=
  lowerStr ((row.full_name.getD "") ++ " " ++ (row.employee_no.getD ""))

/-- Does a row match the query?  Every token must be a substring of the
haystack. -/
def rowMatches (q : String) (row : DailySummaryRow) : Bool :=
  (tokenize q).all (fun term => strIncludes (rowHaystack row) term)

/-- Embeds `filteredSummary` of the dashboard page: no tokens returns the input list
unchanged, otherwise keep the rows every token matches. -/
def filteredSummary (q : String) (rows : List DailySummaryRow) :
    List DailySummaryRow :=
  if tokenize q = [] then rows else rows.filter (rowMatches q)

/-! ## Claim theorems: C1, C4 -/

/-- The `employee_no:"M-1", last_in:"08:00", last_out:null` example row; the
wall-clock times are their epoch offsets in milliseconds. -/
def exRowM1 : DailySummaryRow :=
  { employee_no := some "M-1", full_name := none, total_minutes := 0,
    last_in := some 28800000, last_out := none, is_inside := true }

/-- The `employee_no:"M-2", last_in:"07:00", last_out:"09:00"` example row. -/
def exRowM2 : DailySummaryRow :=
  { employee_no := some "M-2", full_name := none, total_minutes := 0,
    last_in := some 25200000, last_out := some 32400000, is_inside := false }

/-- A zero `getLastActivityMs` forces both timestamps absent, provided no
timestamp in the row is the literal epoch instant 0. -/
theorem noActivity_of_key_zero (r : DailySummaryRow)
    (hin : r.last_in ≠ some 0) (hout : r.last_out ≠ some 0)
    (h : getLastActivityMs r = 0) : hasNoActivity r := by
  unfold getLastActivityMs at h
  obtain ⟨hx, hy⟩ := Nat.max_eq_zero_iff.mp h
  constructor
  · rcases hi : r.last_in with _ | t
    · rfl
    · exfalso
      rw [hi] at hx
      simp only [Option.getD_some] at hx
      exact hin (by rw [hi, hx])
  · rcases ho : r.last_out with _ | u
    · rfl
    · exfalso
      rw [ho] at hy
      simp only [Option.getD_some] at hy
      exact hout (by rw [ho, hy])

/-- C1: the dashboard display order is sorted descending by the last-activity
key `max(last_in, last_out)`: whenever row `A` appears before row `B` in the
output, `getLastActivityMs A ≥ getLastActivityMs B`; the output is a
permutation of the fetched rows; rows with no activity sort last (every row
after a no-activity row is itself without activity, provided no timestamp is
the epoch instant 0); and on the two example rows the output order is
`[M-2, M-1]`. -/
theorem dashboard_sort_desc_last_activity (rows : List DailySummaryRow) :
    (sortSummary rows).Pairwise
      (fun a b => getLastActivityMs b ≤ getLastActivityMs a) ∧
    (sortSummary rows).Perm rows ∧
    ((∀ r ∈ rows, r.last_in ≠ some 0 ∧ r.last_out ≠ some 0) →
      (sortSummary rows).Pairwise (fun a b => hasNoActivity a → hasNoActivity b)) ∧
    sortSummary [exRowM1, exRowM2] = [exRowM2, exRowM1] := by
  have hperm : (sortSummary rows).Perm rows := List.perm_insertionSort _ rows
  have hsorted : (sortSummary rows).Pairwise moreRecentFirst :=
    List.sorted_insertionSort moreRecentFirst rows
  refine ⟨hsorted, hperm, fun hpos => ?_, by decide⟩
  refine List.Pairwise.imp_of_mem ?_ hsorted
  intro a b ha hb hr hna
  have hb' : b ∈ rows := hperm.mem_iff.mp hb
  have ha0 : getLastActivityMs a = 0 := by
    rcases hna with ⟨h1, h2⟩
    simp [getLastActivityMs, h1, h2]
  have hkey : getLastActivityMs b = 0 := by
    have hle : getLastActivityMs b ≤ getLastActivityMs a := hr
    omega
  exact noActivity_of_key_zero b (hpos b hb').1 (hpos b hb').2 hkey

/-- Witness for C1: applying the theorem to the two example rows, with the
positivity side condition discharged concretely, shows no-activity rows sort
last there. -/
theorem dashboard_sort_desc_last_activity_witness :
    (sortSummary [exRowM1, exRowM2]).Pairwise
      (fun a b => hasNoActivity a → hasNoActivity b) :=
  (dashboard_sort_desc_last_activity [exRowM1, exRowM2]).2.2.1 (by decide)

/-- Permuted lists agree under `List.all`. -/
theorem all_perm_congr {α : Type} (p : α → Bool) {l1 l2 : List α}
    (h : l1.Perm l2) : l1.all p = l2.all p := by
  induction h with
  | nil => rfl
  | cons x h ih => simp [List.all_cons, ih]
  | swap x y l => simp [List.all_cons, Bool.and_left_comm]
  | trans h1 h2 ih1 ih2 => rw [ih1, ih2]

/-- Two queries with permuted token lists accept exactly the same rows. -/
theorem rowMatches_perm_congr (q1 q2 : String)
    (h : (tokenize q1).Perm (tokenize q2)) (row : DailySummaryRow) :
    rowMatches q1 row = rowMatches q2 row :=
  all_perm_congr (fun term => strIncludes (rowHaystack row) term) h

/-- C4: search filtering over daily summary rows is idempotent, invariant
under permutation of the query tokens (in particular `"john smith"` and
`"smith john"` filter identically), and the identity for queries without
tokens (empty or whitespace-only queries). -/
theorem search_filter_algebra (rows : List DailySummaryRow) (q q1 q2 : String) :
    (filteredSummary q (filteredSummary q rows) = filteredSummary q rows) ∧
    ((tokenize q1).Perm (tokenize q2) →
      filteredSummary q1 rows = filteredSummary q2 rows) ∧
    (tokenize q = [] → filteredSummary q rows = rows) ∧
    (filteredSummary "john smith" rows = filteredSummary "smith john" rows) ∧
    (filteredSummary "" rows = rows) ∧
    (filteredSummary "   " rows = rows) := by
  have hperm : ∀ (r1 r2 : String), (tokenize r1).Perm (tokenize r2) →
      filteredSummary r1 rows = filteredSummary r2 rows := by
    intro r1 r2 h
    unfold filteredSummary
    by_cases h1 : tokenize r1 = []
    · have h2 : tokenize r2 = [] := List.Perm.eq_nil (h1 ▸ h.symm)
      simp [h1, h2]
    · have h2 : tokenize r2 ≠ [] := fun h2 =>
        h1 (List.Perm.eq_nil (h2 ▸ h))
      simp only [h1, h2, if_neg, if_false]
      exact List.filter_congr (fun row _ => rowMatches_perm_congr r1 r2 h row)
  have hempty : ∀ r : String, tokenize r = [] → filteredSummary r rows = rows := by
    intro r h
    simp [filteredSummary, h]
  refine ⟨?_, hperm q1 q2, hempty q, hperm _ _ (by decide),
    hempty "" (by decide), hempty "   " (by decide)⟩
  unfold filteredSummary
  by_cases h1 : tokenize q = []
  · simp [h1]
  · simp only [h1, if_neg, if_false]
    rw [List.filter_filter]
    exact List.filter_congr (fun row _ => by rw [Bool.and_self])

/-- Witness for C4: the token permutation between `"john smith"` and
`"smith john"` applied to a concrete one-row collection. -/
theorem search_filter_algebra_witness :
    filteredSummary "john smith" [exRowM1] = filteredSummary "smith john" [exRowM1] :=
  (search_filter_algebra [exRowM1] "" "john smith" "smith john").2.1 (by decide)

/-! ## Medical exam result normalization
(`src/unnamed/part_008` lines 138-152, `src/unnamed/part_006` lines 288-301)

Both versions lowercase `String(statusRaw || "")` and branch on the
recognized variants.  The translation function `t` is the free parameter
`tr`. -/

/-- Result variants the code buckets as "review" (the third one is the
transliterated word written with an apostrophe, `ko` + apostrophe + `rik`). -/
def reviewVariants : List String := ["review", "manual_review", "ko\x27rik", "korik"]

/-- Result variants the code buckets as "failed". -/
def failedVariants : List String := ["failed", "fail", "rejected"]

/-- Embeds `toDisplayStatus` of the medical-exam widget (`src/unnamed/part_008`): the
label shown in the result pill.  The final branch is `statusRaw || "-"`. -/
def toDisplayStatus (tr : String → String) (statusRaw : String) : String :=
  let s := lowerStr statusRaw
  if s = "passed" then tr "status.passed"
  else if s = "review" || s = "manual_review" || s = "ko\x27rik" || s = "korik" then
    tr "status.review"
  else if s = "failed" || s = "fail" || s = "rejected" then tr "status.failed"
  else if statusRaw = "" then "-" else statusRaw

/-- Embeds `toColorStatus` of the medical-exam widget (`src/unnamed/part_008`): the
status-color token, defaulting to `WARNING`. -/
def toColorStatus (statusRaw : String) : String :=
  let s := lowerStr statusRaw
  if s = "passed" then "ACCEPTED"
  else if s = "review" || s = "manual_review" || s = "ko\x27rik" || s = "korik" then
    "WARNING"
  else if s = "failed" || s = "fail" || s = "rejected" then "REJECTED"
  else "WARNING"

/-- Embeds `toColorStatus` of the ESMO journal page (`src/unnamed/part_006`): its
review branch omits the transliterated variants, which therefore fall through
to the default `WARNING`. -/
def toColorStatusJournal (statusRaw : String) : String :=
  let s := lowerStr statusRaw
  if s = "passed" then "ACCEPTED"
  else if s = "review" || s = "manual_review" then "WARNING"
  else if s = "failed" || s = "fail" || s = "rejected" then "REJECTED"
  else "WARNING"

/-! ## Claim theorems: C2 -/

/-- C2 counterexample: with the identity translation table, the display-label
mapping sends the unrecognized result `"xyz"` to the raw string `"xyz"`, which
is none of the three buckets (and in particular not the review label), so the
display mapping is not closed over the three buckets and unrecognized values
do not display as review. -/
theorem display_status_not_closed_cex :
    toDisplayStatus (fun k => k) "xyz" = "xyz" ∧
    "xyz" ≠ "status.passed" ∧ "xyz" ≠ "status.review" ∧ "xyz" ≠ "status.failed" := by
  refine ⟨by decide, by decide, by decide, by decide⟩

/-- C2 (amended): the color mapping is total and closed over
`ACCEPTED`/`WARNING`/`REJECTED` with `ACCEPTED` exactly for "passed" and
`WARNING` for every unrecognized value, and both page versions of it agree;
the display mapping sends the recognized variants to the passed/review/failed
labels, but an unrecognized value displays as the raw string itself (`"-"`
when empty), never as the passed label. -/
theorem medical_status_normalization (tr : String → String) (s : String) :
    (toColorStatus s = "ACCEPTED" ∨ toColorStatus s = "WARNING" ∨
      toColorStatus s = "REJECTED") ∧
    (toColorStatus s = "ACCEPTED" ↔ lowerStr s = "passed") ∧
    (toColorStatusJournal s = toColorStatus s) ∧
    (lowerStr s = "passed" → toDisplayStatus tr s = tr "status.passed") ∧
    (lowerStr s ∈ reviewVariants →
      toColorStatus s = "WARNING" ∧ toDisplayStatus tr s = tr "status.review") ∧
    (lowerStr s ∈ failedVariants →
      toColorStatus s = "REJECTED" ∧ toDisplayStatus tr s = tr "status.failed") ∧
    (lowerStr s ≠ "passed" → lowerStr s ∉ reviewVariants →
      lowerStr s ∉ failedVariants →
      toColorStatus s = "WARNING" ∧
      toDisplayStatus tr s = (if s = "" then "-" else s)) := by
  simp only [toColorStatus, toColorStatusJournal, toDisplayStatus,
    reviewVariants, failedVariants, List.mem_cons, List.not_mem_nil, or_false,
    List.mem_singleton]
  by_cases h1 : lowerStr s = "passed" <;>
    by_cases h2 : lowerStr s = "review" <;>
    by_cases h3 : lowerStr s = "manual_review" <;>
    by_cases h4 : lowerStr s = "ko\x27rik" <;>
    by_cases h5 : lowerStr s = "korik" <;>
    by_cases h6 : lowerStr s = "failed" <;>
    by_cases h7 : lowerStr s = "fail" <;>
    by_cases h8 : lowerStr s = "rejected" <;>
    simp [h1, h2, h3, h4, h5, h6, h7, h8]

/-- Witness for C2 (amended): the transliterated review variant is colored
`WARNING` and displayed with the review label, identically in both versions. -/
theorem medical_status_normalization_witness :
    toColorStatus "ko\x27rik" = "WARNING" ∧
    toDisplayStatus (fun k => k) "ko\x27rik" = "status.review" ∧
    toColorStatusJournal "ko\x27rik" = toColorStatus "ko\x27rik" := by
  have h := medical_status_normalization (fun k => k) "ko\x27rik"
  have hrev := h.2.2.2.2.1 (by decide)
  exact ⟨hrev.1, hrev.2, h.2.2.1⟩

/-! ## Admin user creation (`src/frontend/src/pages/AdminUsersPage.tsx`
lines 69-97) -/

/-- The role whitelist of the admin page. -/
def adminRoles : List String :=
  ["admin", "superadmin", "dispatcher", "medical", "warehouse", "viewer"]

/-- The create-user form fields. -/
structure NewUserForm where
  username : String
  password : String
  role : String
deriving DecidableEq, Repr

/-- A row of the users table. -/
structure UserRec where
  id : Nat
  username : String
  role : String
  is_active : Bool
deriving DecidableEq, Repr

/-- The local state `handleCreate` can touch: the user list, the dialog flag
and the form. -/
structure AdminUsersState where
  users : List UserRec
  createOpen : Bool
  form : NewUserForm
deriving DecidableEq, Repr

/-- The payload of a `createUser` request. -/
structure CreateUserReq where
  username : String
  password : String
  role : String
deriving DecidableEq, Repr

/-- The form reset value `{ username: "", password: "", role: "viewer" }`. -/
def emptyNewUserForm : NewUserForm := ⟨"", "", "viewer"⟩

/-- Embeds `canCreate`: trimmed username at least 3 characters, password at least 6,
role in the whitelist. -/
def canCreate (f : NewUserForm) : Bool :=
  decide (3 ≤ (trimChars f.username.data).length) &&
    decide (6 ≤ f.password.length) && adminRoles.contains f.role

/-- Embeds `handleCreate`: when `canCreate` fails it alerts and returns without a
network call; otherwise it issues `createUser` with the trimmed username,
closes the dialog, resets the form and reloads the list (`fetched` stands for
the reloaded rows).  The first component is the request sent, if any. -/
def handleCreate (st : AdminUsersState) (fetched : List UserRec) :
    Option CreateUserReq × AdminUsersState :=
  if canCreate st.form then
    (some ⟨String.mk (trimChars st.form.username.data), st.form.password,
       st.form.role⟩,
     { users := fetched, createOpen := false, form := emptyNewUserForm })
  else (none, st)

/-! ## Medical-exam widget pagination clamp (`src/unnamed/part_008`
lines 131-136) -/

/-- Embeds `Math.max(0, Math.ceil(filteredExams.length / rowsPerPage) - 1)`.  On
naturals the truncated subtraction realizes the outer `Math.max(0, _)` and
`(len + rpp - 1) / rpp` is `Math.ceil(len / rpp)` for a positive `rpp`. -/
def jsMaxPage (filteredLen rowsPerPage : Nat) : Nat :=
  (filteredLen + rowsPerPage - 1) / rowsPerPage - 1

/-- The clamp effect: `if (page > maxPage) setPage(maxPage)`; its result is
the page index after the effect has run. -/
def clampPage (filteredLen rowsPerPage page : Nat) : Nat :=
  if page > jsMaxPage filteredLen rowsPerPage then jsMaxPage filteredLen rowsPerPage
  else page

/-- Embeds `filteredExams.slice(page * rowsPerPage, page * rowsPerPage + rowsPerPage)`. -/
def pageSlice {α : Type} (l : List α) (page rowsPerPage : Nat) : List α :=
  (l.drop (page * rowsPerPage)).take rowsPerPage

/-! ## Devices page visibility filter (`src/unnamed/part_006` lines 9-27) -/

/-- A device row (`src/unnamed/part_001`), restricted to the fields the
visibility filter and the two tables read. -/
structure Device where
  id : Nat
  device_code : String
  device_type : String
  host : Option String
deriving DecidableEq, Repr

/-- The fixed ESMO host allowlist. -/
def allowedEsmoHosts : List String :=
  ["192.168.8.17", "192.168.8.18", "192.168.8.19", "192.168.8.20"]

/-- The predicate of `devices.filter(...)`: drop the two admin codes, keep
every non-ESMO device, keep an ESMO device only when its host is present and
allowlisted. -/
def deviceVisible (d : Device) : Bool :=
  if d.device_code = "ADMIN_PC" || d.device_code = "ESMO_PORTAL" then false
  else if d.device_type ≠ "ESMO" then true
  else
    match d.host with
    | none => false
    | some h => allowedEsmoHosts.contains h

/-- Embeds `visibleDevices`. -/
def visibleDevices (ds : List Device) : List Device := ds.filter deviceVisible

/-- Embeds `turnstileDevices`: the visible devices that are not of type ESMO. -/
def turnstileDevices (ds : List Device) : List Device :=
  (visibleDevices ds).filter (fun d => d.device_type ≠ "ESMO")

/-- Embeds `esmoDevices`: the visible devices of type ESMO. -/
def esmoDevices (ds : List Device) : List Device :=
  (visibleDevices ds).filter (fun d => d.device_type = "ESMO")

/-! ## Claim theorems: C8, C9, C10 -/

/-- C8: user creation is blocked client-side: when the trimmed username is
shorter than 3 characters, or the password shorter than 6, or the role not in
the whitelist, `handleCreate` issues no `createUser` request and leaves the
page state unchanged; when all three checks pass, the request is issued with
the trimmed username (and the given password and role). -/
theorem admin_create_validation (st : AdminUsersState) (fetched : List UserRec) :
    (((trimChars st.form.username.data).length < 3 ∨
        st.form.password.length < 6 ∨ st.form.role ∉ adminRoles) →
      handleCreate st fetched = (none, st)) ∧
    ((3 ≤ (trimChars st.form.username.data).length ∧
        6 ≤ st.form.password.length ∧ st.form.role ∈ adminRoles) →
      (handleCreate st fetched).1 =
        some ⟨String.mk (trimChars st.form.username.data), st.form.password,
          st.form.role⟩) := by
  constructor
  · intro h
    have hc : canCreate st.form = false := by
      rcases h with h | h | h
      · simp only [canCreate, Bool.and_eq_false_iff, decide_eq_false_iff_not]
        left; left; omega
      · simp only [canCreate, Bool.and_eq_false_iff, decide_eq_false_iff_not]
        left; right; omega
      · simp only [canCreate, Bool.and_eq_false_iff]
        right
        rcases hcon : adminRoles.contains st.form.role with _ | _
        · rfl
        · exact absurd (List.mem_of_elem_eq_true hcon) h
    simp [handleCreate, hc]
  · rintro ⟨h1, h2, h3⟩
    have hc : canCreate st.form = true := by
      simp only [canCreate, Bool.and_eq_true, decide_eq_true_eq]
      exact ⟨⟨h1, h2⟩, List.elem_eq_true_of_mem h3⟩
    simp [handleCreate, hc]

/-- Witness for C8: a concrete valid form issues the request with the trimmed
username, and a concrete short username issues none. -/
theorem admin_create_validation_witness :
    (handleCreate ⟨[], true, ⟨"  alice ", "hunter77", "viewer"⟩⟩ []).1 =
      some ⟨"alice", "hunter77", "viewer"⟩ ∧
    handleCreate ⟨[], true, ⟨"ab", "hunter77", "viewer"⟩⟩ [] =
      (none, ⟨[], true, ⟨"ab", "hunter77", "viewer"⟩⟩) := by
  constructor
  · have h := (admin_create_validation ⟨[], true, ⟨"  alice ", "hunter77", "viewer"⟩⟩ []).2
      (by refine ⟨by decide, by decide, by decide⟩)
    exact h.trans (by decide)
  · exact (admin_create_validation ⟨[], true, ⟨"ab", "hunter77", "viewer"⟩⟩ []).1
      (Or.inl (by decide))

/-- C9: after the clamp effect the page index never exceeds
`max(0, ceil(filteredExams.length / rowsPerPage) - 1)`; when the filtered list
is empty the page is 0; and for a non-empty filtered list the displayed slice
starts strictly inside the list and is non-empty, so the view is never beyond
the last non-empty page. -/
theorem exam_pagination_clamped {α : Type} (l : List α)
    (rowsPerPage page : Nat) (hrpp : 0 < rowsPerPage) :
    clampPage l.length rowsPerPage page ≤ jsMaxPage l.length rowsPerPage ∧
    (l = [] → clampPage l.length rowsPerPage page = 0) ∧
    (l ≠ [] →
      clampPage l.length rowsPerPage page * rowsPerPage < l.length ∧
      pageSlice l (clampPage l.length rowsPerPage page) rowsPerPage ≠ []) := by
  have hclamp : clampPage l.length rowsPerPage page ≤ jsMaxPage l.length rowsPerPage := by
    unfold clampPage
    split <;> omega
  refine ⟨hclamp, fun hnil => ?_, fun hne => ?_⟩
  · have hmp : jsMaxPage l.length rowsPerPage = 0 := by
      unfold jsMaxPage
      rw [hnil]
      simp [Nat.div_eq_of_lt (by omega : rowsPerPage - 1 < rowsPerPage)]
    unfold clampPage at *
    split <;> omega
  · have hlen : 0 < l.length := List.length_pos.mpr hne
    set q := (l.length + rowsPerPage - 1) / rowsPerPage with hq
    have h1 : q * rowsPerPage ≤ l.length + rowsPerPage - 1 :=
      Nat.div_mul_le_self _ _
    have h2 : 1 ≤ q := by
      rw [hq, Nat.one_le_div_iff hrpp]
      omega
    have h3 : clampPage l.length rowsPerPage page * rowsPerPage ≤
        (q - 1) * rowsPerPage :=
      Nat.mul_le_mul_right _ hclamp
    rw [Nat.sub_mul, Nat.one_mul] at h3
    have hlt : clampPage l.length rowsPerPage page * rowsPerPage < l.length := by
      have hq1 : rowsPerPage ≤ q * rowsPerPage :=
        le_mul_of_one_le_left (Nat.zero_le _) h2
      omega
    refine ⟨hlt, fun hsl => ?_⟩
    have hlensl : (pageSlice l (clampPage l.length rowsPerPage page) rowsPerPage).length
        = min rowsPerPage (l.length - clampPage l.length rowsPerPage page * rowsPerPage) := by
      simp [pageSlice, List.length_take, List.length_drop]
    rw [hsl] at hlensl
    simp only [List.length_nil] at hlensl
    omega

/-- Witness for C9: with 7 filtered rows, 5 rows per page and a stale page
index 4, the clamp brings the view back to page 1, whose slice is the last two
rows. -/
theorem exam_pagination_clamped_witness :
    pageSlice [0, 1, 2, 3, 4, 5, 6] (clampPage 7 5 4) 5 ≠ [] :=
  ((exam_pagination_clamped [0, 1, 2, 3, 4, 5, 6] 5 4 (by decide)).2.2
    (by decide)).2

/-- C10: the devices page never displays the `ADMIN_PC`/`ESMO_PORTAL` rows,
displays an ESMO device exactly when its host is present and allowlisted,
displays every other device whose code is not excluded, and partitions the
visible set into the ESMO table and the turnstile table. -/
theorem devices_page_visibility (ds : List Device) (d : Device) :
    ((d.device_code = "ADMIN_PC" ∨ d.device_code = "ESMO_PORTAL") →
      d ∉ visibleDevices ds) ∧
    (d ∈ ds → d.device_type = "ESMO" → d.device_code ≠ "ADMIN_PC" →
      d.device_code ≠ "ESMO_PORTAL" →
      (d ∈ visibleDevices ds ↔ ∃ h, d.host = some h ∧ h ∈ allowedEsmoHosts)) ∧
    (d ∈ ds → d.device_code ≠ "ADMIN_PC" → d.device_code ≠ "ESMO_PORTAL" →
      d.device_type ≠ "ESMO" → d ∈ visibleDevices ds) ∧
    (d ∈ visibleDevices ds ↔ d ∈ esmoDevices ds ∨ d ∈ turnstileDevices ds) ∧
    ¬(d ∈ esmoDevices ds ∧ d ∈ turnstileDevices ds) := by
  refine ⟨fun hcode => ?_, fun hd htype hc1 hc2 => ?_, fun hd hc1 hc2 htype => ?_,
    ?_, ?_⟩
  · intro hmem
    have := (List.mem_filter.mp hmem).2
    rcases hcode with h | h <;> simp [deviceVisible, h] at this
  · constructor
    · intro hmem
      have hv := (List.mem_filter.mp hmem).2
      simp only [deviceVisible, hc1, hc2, htype] at hv
      rcases hh : d.host with _ | host
      · rw [hh] at hv; simp at hv
      · rw [hh] at hv
        simp only [] at hv
        exact ⟨host, rfl, List.mem_of_elem_eq_true (by simpa using hv)⟩
    · rintro ⟨host, hh, hmem⟩
      refine List.mem_filter.mpr ⟨hd, ?_⟩
      simp only [deviceVisible, hc1, hc2, htype, hh]
      simpa using List.elem_eq_true_of_mem hmem
  · refine List.mem_filter.mpr ⟨hd, ?_⟩
    simp [deviceVisible, hc1, hc2, htype]
  · constructor
    · intro hmem
      by_cases htype : d.device_type = "ESMO"
      · exact Or.inl (List.mem_filter.mpr ⟨hmem, by simp [htype]⟩)
      · exact Or.inr (List.mem_filter.mpr ⟨hmem, by simp [htype]⟩)
    · rintro (hmem | hmem) <;> exact (List.mem_filter.mp hmem).1
  · rintro ⟨he, ht⟩
    have h1 := (List.mem_filter.mp he).2
    have h2 := (List.mem_filter.mp ht).2
    simp at h1 h2
    exact h2 h1

/-- Witness for C10: in a concrete fetched list, the allowlisted ESMO terminal
is visible (in the ESMO table), while the portal row is not. -/
theorem devices_page_visibility_witness :
    (⟨1, "ESMO_T1", "ESMO", some "192.168.8.17"⟩ : Device) ∈
      visibleDevices [⟨1, "ESMO_T1", "ESMO", some "192.168.8.17"⟩,
        ⟨2, "ESMO_PORTAL", "ESMO", some "192.168.8.17"⟩] := by
  exact ((devices_page_visibility
    [⟨1, "ESMO_T1", "ESMO", some "192.168.8.17"⟩,
     ⟨2, "ESMO_PORTAL", "ESMO", some "192.168.8.17"⟩]
    ⟨1, "ESMO_T1", "ESMO", some "192.168.8.17"⟩).2.1
    (by decide) rfl (by decide) (by decide)).mpr
    ⟨"192.168.8.17", rfl, by decide⟩

/-! ## The Tashkent "today" boundary (`src/unnamed/part_004` lines 82-93 and
110-131, `src/unnamed/part_008` lines 42-102)

`getTodayTashkent` formats the current instant with
`Intl.DateTimeFormat("en-US", { timeZone: "Asia/Tashkent", ... })`.
Asia/Tashkent is UTC+05:00 the whole year (no daylight saving), so the
formatter is embedded as: shift the instant by five hours, take the Gregorian
civil date of the resulting UTC day number.  The proleptic-Gregorian
day-number-to-date conversion below is the standard era-based algorithm. -/

/-- Gregorian civil date `(year, month, day)` of a day number counted from
1970-01-01. -/
def civilFromDays (z0 : Int) : Int × Int × Int :=
  let z := z0 + 719468
  let era := Int.fdiv z 146097
  let doe := z - era * 146097
  let yoe := Int.fdiv (doe - Int.fdiv doe 1460 + Int.fdiv doe 36524 -
    Int.fdiv doe 146096) 365
  let y := yoe + era * 400
  let doy := doe - (365 * yoe + Int.fdiv yoe 4 - Int.fdiv yoe 100)
  let mp := Int.fdiv (5 * doy + 2) 153
  let d := doy - Int.fdiv (153 * mp + 2) 5 + 1
  let m := if mp < 10 then mp + 3 else mp - 9
  (y + (if m ≤ 2 then 1 else 0), m, d)

/-- Two-digit zero padding, the `"2-digit"` option of the formatter. -/
def pad2 (n : Int) : String := if n < 10 then "0" ++ toString n else toString n

/-- Assemble the `year-month-day` string the pages build from the formatter
parts. -/
def formatYmd (ymd : Int × Int × Int) : String :=
  toString ymd.1 ++ "-" ++ pad2 ymd.2.1 ++ "-" ++ pad2 ymd.2.2

/-- Day number (from the epoch) of the civil date at UTC offset
`offsetSeconds` for the instant `epochMs`. -/
def civilDayNumber (epochMs : Int) (offsetSeconds : Int) : Int :=
  Int.fdiv (Int.fdiv epochMs 1000 + offsetSeconds) 86400

/-- The fixed UTC offset of Asia/Tashkent, in seconds. -/
def tashkentOffsetSeconds : Int := 5 * 3600

/-- Embeds `getTodayTashkent()`: the current instant rendered as a Tashkent civil
`year-month-day` string.  It is a function of the instant only. -/
def getTodayTashkent (nowMs : Int) : String :=
  formatYmd (civilFromDays (civilDayNumber nowMs tashkentOffsetSeconds))

/-- The civil date string a browser at UTC offset `offsetMinutes` would
produce for the same instant (what formatting without the `timeZone` option
would do). -/
def browserLocalYmd (nowMs : Int) (offsetMinutes : Int) : String :=
  formatYmd (civilFromDays (civilDayNumber nowMs (offsetMinutes * 60)))

/-- The two day values the dashboard `load` function derives: the `day` query
parameter of `fetchDailyMineSummary` and the `dashboardDay` handed to the
medical-exam widget. -/
structure DashboardLoadDays where
  queryDay : String
  widgetDay : String
deriving DecidableEq, Repr

/-- The `load` closure of the dashboard page: `const today =
getTodayTashkent(); setDashboardDay(today); fetchDailyMineSummary(today)`.
The browser offset parameter records that the surrounding page has access to
the browser timezone; `load` never reads it. -/
def dashboardLoad (nowMs : Int) (_browserOffsetMinutes : Int) :
    DashboardLoadDays :=
  { queryDay := getTodayTashkent nowMs, widgetDay := getTodayTashkent nowMs }

/-- The nested `employee` object of an exam row. -/
structure EmployeeRef where
  id : Nat
  employee_no : String
  first_name : String
  last_name : String
  patronymic : Option String
deriving DecidableEq, Repr

/-- An exam row (`src/frontend/src/api/medical.ts`), restricted to the fields
the widget, journal and exports read.  `temperature` is carried as its
rendered decimal string (the embedding does not model float formatting);
`employee_full_name` is the optional precomputed name the widget prefers. -/
structure MedicalExam where
  id : Nat
  employee_id : Nat
  terminal_name : String
  result : String
  pressure_systolic : Option Int
  pressure_diastolic : Option Int
  pulse : Option Int
  temperature : Option String
  timestamp : String
  employee : Option EmployeeRef
  employee_full_name : Option String
deriving DecidableEq, Repr

/-- Recognize a leading `dddd-dd-dd` ISO date, the regex
`/^(\d{4}-\d{2}-\d{2})/` of `getExamDay`. -/
def isoDateHead (raw : List Char) : Option String :=
  match raw with
  | y1 :: y2 :: y3 :: y4 :: s1 :: m1 :: m2 :: s2 :: d1 :: d2 :: _ =>
    if y1.isDigit && y2.isDigit && y3.isDigit && y4.isDigit && s1 = '-' &&
        m1.isDigit && m2.isDigit && s2 = '-' && d1.isDigit && d2.isDigit then
      some (String.mk [y1, y2, y3, y4, s1, m1, m2, s2, d1, d2])
    else none
  | _ => none

/-- Embeds `getExamDay` of the medical-exam widget: take the literal leading ISO date
when present; otherwise parse the timestamp (`parseMs` models `new Date`,
`none` models `NaN`) and format it in the Tashkent calendar. -/
def getExamDay (parseMs : String → Option Int) (raw : String) : Option String :=
  match isoDateHead raw.data with
  | some day => some day
  | none =>
    match parseMs raw with
    | none => none
    | some ms =>
      some (formatYmd (civilFromDays (civilDayNumber ms tashkentOffsetSeconds)))

/-- The widget target day: the `day` prop when present and non-empty,
otherwise its own `getTodayTashkent()` (the JS `day || getTodayTashkent()`). -/
def widgetTargetDay (day : Option String) (nowMs : Int) : String :=
  match day with
  | some d => if d = "" then getTodayTashkent nowMs else d
  | none => getTodayTashkent nowMs

/-- The defensive re-bucketing of `loadExams`: keep only the exams whose day
is the target day. -/
def medicalDailyData (parseMs : String → Option Int) (targetDay : String)
    (exams : List MedicalExam) : List MedicalExam :=
  exams.filter (fun e => getExamDay parseMs e.timestamp = some targetDay)

/-! ## Claim theorems: C6 -/

/-- A formatted `year-month-day` string is never empty (it contains a dash). -/
theorem formatYmd_ne_empty (x : Int × Int × Int) : formatYmd x ≠ "" := by
  intro h
  have hm : '-' ∈ (formatYmd x).data := by
    simp [formatYmd, String.data_append]
  rw [h] at hm
  exact List.not_mem_nil _ hm

/-- A concrete exam row dated 2025-10-11 (Tashkent). -/
def exExam : MedicalExam :=
  { id := 1, employee_id := 7, terminal_name := "MT-02", result := "passed",
    pressure_systolic := some 120, pressure_diastolic := some 80,
    pulse := some 70, temperature := some "36.6",
    timestamp := "2025-10-11T08:00:00",
    employee := some ⟨7, "M-1", "John", "Doe", none⟩,
    employee_full_name := some "Doe John" }

/-- C6: the dashboard "today" boundary is the Asia/Tashkent civil date of the
current instant: for every instant and every browser UTC offset, the day
string queried from the backend and the day handed to the medical widget both
equal `getTodayTashkent` (so they do not depend on the browser timezone), the
widget re-buckets against that same day (every row it keeps carries exactly
that exam day), and the Tashkent day genuinely differs from a browser-local
day (at the epoch instant, a UTC-6 browser is still on 1969-12-31). -/
theorem dashboard_today_is_tashkent (nowMs off1 off2 : Int)
    (parseMs : String → Option Int) (exams : List MedicalExam) :
    (dashboardLoad nowMs off1).queryDay = getTodayTashkent nowMs ∧
    (dashboardLoad nowMs off1).widgetDay = getTodayTashkent nowMs ∧
    dashboardLoad nowMs off1 = dashboardLoad nowMs off2 ∧
    widgetTargetDay (some (dashboardLoad nowMs off1).widgetDay) nowMs =
      getTodayTashkent nowMs ∧
    (∀ e ∈ medicalDailyData parseMs
        (widgetTargetDay (some (dashboardLoad nowMs off1).widgetDay) nowMs) exams,
      getExamDay parseMs e.timestamp = some (getTodayTashkent nowMs)) ∧
    browserLocalYmd 0 (-360) ≠ getTodayTashkent 0 := by
  have htd : widgetTargetDay (some (dashboardLoad nowMs off1).widgetDay) nowMs =
      getTodayTashkent nowMs := by
    show (if getTodayTashkent nowMs = "" then getTodayTashkent nowMs
          else getTodayTashkent nowMs) = getTodayTashkent nowMs
    rw [if_neg (show getTodayTashkent nowMs ≠ "" from formatYmd_ne_empty _)]
  refine ⟨rfl, rfl, rfl, htd, fun e he => ?_, by decide⟩
  have hf := (List.mem_filter.mp he).2
  rw [htd] at hf
  simpa using hf

/-- Witness for C6: the concrete exam row dated 2025-10-11 survives the
widget re-bucketing for the instant 2025-10-10T21:00Z (which is already
2025-10-11 in Tashkent) and carries exactly the Tashkent day. -/
theorem dashboard_today_is_tashkent_witness :
    getExamDay (fun _ => none) exExam.timestamp =
      some (getTodayTashkent 1760130000000) :=
  (dashboard_today_is_tashkent 1760130000000 (-360) 120 (fun _ => none)
    [exExam]).2.2.2.2.1 exExam (by decide)

/-! ## ESMO journal CSV export (`src/unnamed/part_006` lines 361-387,
486-494) -/

/-- JS `x || "-"` on a string field. -/
def orDash (s : String) : String := if s = "" then "-" else s

/-- Embeds `getFullName`: join the non-empty name parts, or fall back to the
numeric id. -/
def getFullName (r : MedicalExam) : String :=
  match r.employee with
  | some emp =>
    joinSep " "
      ((([some emp.last_name, some emp.first_name, emp.patronymic].filterMap id).filter
        (fun s => s ≠ "")))
  | none => "ID: " ++ toString r.employee_id

/-- Embeds `formatPressure`: `sys/dia`, or a dash when either half is missing. -/
def formatPressure (r : MedicalExam) : String :=
  match r.pressure_systolic, r.pressure_diastolic with
  | some s, some d => toString s ++ "/" ++ toString d
  | _, _ => "-"

/-- Embeds `formatPulse`. -/
def formatPulse (p : Option Int) : String :=
  match p with
  | some n => toString n
  | none => "-"

/-- Embeds `formatTemperature`: the rendered number followed by the degree sign. -/
def formatTemperature (t : Option String) : String :=
  match t with
  | some v => v ++ "°C"
  | none => "-"

/-- The seven on-screen columns of one exported row, in CSV order; `fmtTime`
stands for the `dayjs(...).format("DD.MM.YYYY HH:mm")` rendering. -/
def esmoCsvCells (tr fmtTime : String → String) (r : MedicalExam) : List String :=
  [getFullName r, fmtTime r.timestamp, orDash r.terminal_name, formatPressure r,
   formatPulse r.pulse, formatTemperature r.temperature,
   toDisplayStatus tr r.result]

/-- Wrap a CSV value in double quotes. -/
def quoteCell (s : String) : String := "\"" ++ s ++ "\""

/-- One data line of the export: the quoted cells joined by semicolons (the
template literal `"..";"..";".."`). -/
def esmoCsvLine (tr fmtTime : String → String) (r : MedicalExam) : String :=
  joinSep ";" ((esmoCsvCells tr fmtTime r).map quoteCell)

/-- The header line (without its trailing newline): the localized column
titles joined by semicolons. -/
def esmoCsvHeaderText (tr : String → String) : String :=
  joinSep ";" [tr "esmo.col.name", tr "esmo.col.time", tr "esmo.col.device",
    tr "esmo.col.pressure", tr "esmo.col.pulse", tr "esmo.col.temperature",
    tr "esmo.col.status"]

/-- Embeds `exportCSV`: the early return on an empty row set produces no file
(`none`); otherwise the blob content is the byte-order mark, the header line,
and the newline-joined data rows. -/
def exportCSV (tr fmtTime : String → String) (rows : List MedicalExam) :
    Option String :=
  if rows.length = 0 then none
  else
    some ("\uFEFF" ++ (esmoCsvHeaderText tr ++ "\n") ++
      joinSep "\n" (rows.map (esmoCsvLine tr fmtTime)))

/-- The `disabled` condition of the export buttons:
`rows.length === 0 || loading`. -/
def exportCsvDisabled (rows : List MedicalExam) (loading : Bool) : Bool :=
  decide (rows.length = 0) || loading

/-- Split a character list into its newline-separated lines (an empty list of
characters is one empty line, mirroring how line counting reads a text). -/
def splitNl : List Char → List (List Char)
  | [] => [[]]
  | c :: cs =>
    if c = '\n' then [] :: splitNl cs
    else
      match splitNl cs with
      | [] => [[c]]
      | t :: ts => (c :: t) :: ts

/-- Helper: `splitNl` never returns the empty list. -/
theorem splitNl_ne_nil (cs : List Char) : splitNl cs ≠ [] := by
  induction cs with
  | nil => simp [splitNl]
  | cons c cs ih =>
    simp only [splitNl]
    split
    · simp
    · rcases h : splitNl cs with _ | ⟨t, ts⟩
      · simp
      · simp

/-- Prepending newline-free characters only extends the first line. -/
theorem splitNl_append (xs cs : List Char) (h : '\n' ∉ xs) :
    splitNl (xs ++ cs) = (splitNl cs).modifyHead (fun t => xs ++ t) := by
  induction xs with
  | nil =>
    rcases h' : splitNl cs with _ | ⟨t, ts⟩
    · exact absurd h' (splitNl_ne_nil cs)
    · simp [h']
  | cons x xs ih =>
    have hx : x ≠ '\n' := fun hx => h (hx ▸ List.mem_cons_self x xs)
    have hxs : '\n' ∉ xs := fun hm => h (List.mem_cons_of_mem x hm)
    rcases h' : splitNl cs with _ | ⟨t, ts⟩
    · exact absurd h' (splitNl_ne_nil cs)
    · have hmid : splitNl (xs ++ cs) = (xs ++ t) :: ts := by
        rw [ih hxs, h']
        rfl
      simp only [List.cons_append, splitNl, hx, if_neg, if_false, List.append_eq]
      rw [hmid]
      simp [List.modifyHead]

/-- A newline-free character list is a single line. -/
theorem splitNl_single (cs : List Char) (h : '\n' ∉ cs) : splitNl cs = [cs] := by
  have := splitNl_append cs [] h
  simpa [splitNl] using this

/-- Joining newline-free strings with newlines yields exactly one line per
string. -/
theorem splitNl_joinSep_length (rows : List String) (hne : rows ≠ [])
    (h : ∀ r ∈ rows, '\n' ∉ r.data) :
    (splitNl (joinSep "\n" rows).data).length = rows.length := by
  induction rows with
  | nil => exact absurd rfl hne
  | cons x xs ih =>
    rcases xs with _ | ⟨y, ys⟩
    · show (splitNl x.data).length = 1
      rw [splitNl_single x.data (h x (List.mem_cons_self _ _))]
      rfl
    · have hx : '\n' ∉ x.data := h x (List.mem_cons_self _ _)
      have hxs : ∀ r ∈ y :: ys, '\n' ∉ r.data :=
        fun r hr => h r (List.mem_cons_of_mem x hr)
      have hdata : (joinSep "\n" (x :: y :: ys)).data =
          x.data ++ '\n' :: (joinSep "\n" (y :: ys)).data := by
        show (x ++ "\n" ++ joinSep "\n" (y :: ys)).data = _
        simp [String.data_append]
      rw [hdata, splitNl_append x.data _ hx]
      have hrec : splitNl ('\n' :: (joinSep "\n" (y :: ys)).data) =
          [] :: splitNl (joinSep "\n" (y :: ys)).data := by
        simp [splitNl]
      rw [hrec]
      have hlen := ih (by simp) hxs
      simp only [List.modifyHead, List.length_cons] at hlen ⊢
      omega

/-! ## Claim theorems: C5 -/

/-- C5: the CSV export acts on the full filtered, unpaginated row set: for an
empty set the action is disabled and produces no file; for a non-empty set
the produced content starts with the UTF-8 byte-order mark, consists of
exactly one header line plus one data line per row (independently of the
grid page or page size, which the export never reads), and each data line is
the semicolon-join of the seven double-quoted cell values. -/
theorem esmo_export_csv_shape (tr fmtTime : String → String)
    (rows : List MedicalExam) (_page _pageSize : Nat)
    (hrows : rows ≠ [])
    (hheader : '\n' ∉ (esmoCsvHeaderText tr).data)
    (hcells : ∀ r ∈ rows, '\n' ∉ (esmoCsvLine tr fmtTime r).data) :
    (exportCSV tr fmtTime [] = none ∧ exportCsvDisabled [] false = true) ∧
    exportCSV tr fmtTime rows =
      some ("\uFEFF" ++ (esmoCsvHeaderText tr ++ "\n") ++
        joinSep "\n" (rows.map (esmoCsvLine tr fmtTime))) ∧
    ("\uFEFF" ++ (esmoCsvHeaderText tr ++ "\n") ++
      joinSep "\n" (rows.map (esmoCsvLine tr fmtTime))).data.head? =
        some '\uFEFF' ∧
    (splitNl ("\uFEFF" ++ (esmoCsvHeaderText tr ++ "\n") ++
      joinSep "\n" (rows.map (esmoCsvLine tr fmtTime))).data).length =
        1 + rows.length ∧
    (rows.map (esmoCsvLine tr fmtTime)).length = rows.length ∧
    (∀ r, esmoCsvLine tr fmtTime r =
      joinSep ";" ((esmoCsvCells tr fmtTime r).map quoteCell)) := by
  have hlen : rows.length ≠ 0 := fun h => hrows (List.length_eq_zero.mp h)
  have hdata : ("\uFEFF" ++ (esmoCsvHeaderText tr ++ "\n") ++
      joinSep "\n" (rows.map (esmoCsvLine tr fmtTime))).data =
      ('\uFEFF' :: (esmoCsvHeaderText tr).data) ++
        '\n' :: (joinSep "\n" (rows.map (esmoCsvLine tr fmtTime))).data := by
    simp [String.data_append]
  refine ⟨⟨rfl, rfl⟩, by simp [exportCSV, hlen], ?_, ?_, List.length_map _ _,
    fun r => rfl⟩
  · rw [hdata]
    rfl
  · rw [hdata]
    have hbomh : '\n' ∉ '\uFEFF' :: (esmoCsvHeaderText tr).data := by
      intro hm
      rcases List.mem_cons.mp hm with h | h
      · exact absurd h.symm (by decide)
      · exact hheader h
    rw [splitNl_append _ _ hbomh]
    have hrec : splitNl ('\n' :: (joinSep "\n" (rows.map (esmoCsvLine tr fmtTime))).data) =
        [] :: splitNl (joinSep "\n" (rows.map (esmoCsvLine tr fmtTime))).data := by
      simp [splitNl]
    rw [hrec]
    have hmapne : rows.map (esmoCsvLine tr fmtTime) ≠ [] := by
      simpa using hrows
    have hmapnl : ∀ r ∈ rows.map (esmoCsvLine tr fmtTime), '\n' ∉ r.data := by
      intro r hr
      rcases List.mem_map.mp hr with ⟨e, he, rfl⟩
      exact hcells e he
    have := splitNl_joinSep_length _ hmapne hmapnl
    simp only [List.modifyHead, List.length_cons, this, List.length_map]
    omega

/-- Witness for C5: a concrete one-row export (identity translation table and
time formatter) produces a two-line file: header plus one data row. -/
theorem esmo_export_csv_shape_witness :
    (splitNl ("\uFEFF" ++ (esmoCsvHeaderText (fun k => k) ++ "\n") ++
      joinSep "\n" ([exExam].map (esmoCsvLine (fun k => k) (fun k => k)))).data).length
      = 1 + 1 :=
  (esmo_export_csv_shape (fun k => k) (fun k => k) [exExam] 0 25
    (by decide) (by decide) (by decide)).2.2.2.1

end MainTrack
